import Mathlib

/-!
Shallow embedding of the trackthenews core pipeline
(`trackthenews/core.py`): matchword compilation, URL decrufting and
canonicalization, the match evaluator of `Article.check_for_matches`, the
image-rendering policy of `Article.tweet`, the dedup store backed by the
`articles` table with its unique url index, the thread-parent lookup, and
the per-article orchestration loop of `main`.

Python `str` values are modelled as `List Char`; `Char.toLower` models
`str.lower()`; `isSubstr` models the Python substring test `in`.
External capabilities (redirect resolution, fetch+extract, the
notification transport, the optional pluggable blocklist module) are
modelled as explicit function or outcome parameters.
-/

/-- Python `s.lower()` on a `List Char` text. -/
def lowerL (s : List Char) : List Char := s.map Char.toLower

/-- Python's substring test `needle in hay` on `List Char` texts. -/
def isSubstr (needle : List Char) : List Char → Bool
  | [] => needle.isEmpty
  | c :: cs => needle.isPrefixOf (c :: cs) || isSubstr needle cs

/-- The ASCII single-quote character, written numerically. -/
def squo : Char := Char.ofNat 39

/-- The ASCII double-quote character, written numerically. -/
def dquo : Char := Char.ofNat 34

/-- Embeds `generate_matchwords`: for a case-sensitive root word, build the
five morphological variants (append nothing, `e`, `en`, `es`, `s`) and, for
each, the cartesian product of the fixed single-character prefix and suffix
sets (`itertools.product`), accumulating `prefix + variant + suffix` strings
with `res +=` in order. -/
def generate_matchwords (word : List Char) : List (List Char) :=
  let words := [word, word ++ ['e'], word ++ ['e', 'n'], word ++ ['e', 's'], word ++ ['s']]
  words.foldl (fun res w =>
    let preL : List Char := ['(', '[', dquo, squo, ' ']
    let sufL : List Char := [')', ']', ';', ',', '.', ':', '-', '–', dquo, squo, ' ']
    let comb := preL.flatMap (fun p => sufL.map (fun s => (p, s)))
    res ++ comb.map (fun c => [c.1] ++ w ++ [c.2])) []

/-- Python `s.split(sep)` for a one-character separator: the list of
separator-free segments, empty segments included (so the result is never
empty, matching Python). -/
def splitOnChar (sep : Char) : List Char → List (List Char)
  | [] => [[]]
  | c :: cs =>
    let r := splitOnChar sep cs
    if c = sep then [] :: r else (c :: r.headD []) :: r.tail

/-- Embeds `decruft_url`: `url.split('?')[0].split('#')[0]`. -/
def decruft_url (url : List Char) : List Char :=
  (splitOnChar '#' ((splitOnChar '?' url).headD [])).headD []

/-- Embeds `Article.canonicalize_url`. The network redirect resolution
(`requests.head(..., allow_redirects=True)` followed by reading the final
location) is an external capability, modelled as an explicit `resolve`
function applied when the feed is flagged `redirectLinks`; when the feed is
not flagged `delicateURLs` the working URL is then decrufted. -/
def canonicalize_url (resolve : List Char → List Char) (redirects delicate : Bool)
    (url : List Char) : List Char :=
  let u := if redirects then resolve url else url
  if !delicate then decruft_url u else u

/-- The paragraph test inside the `for graf in plaintext_grafs` loop of
`Article.check_for_matches`: any case-insensitive matchword is a
case-folded substring of the paragraph, or any case-sensitive surface form
is an exact substring. -/
def grafMatches (mws mwsCS : List (List Char)) (graf : List Char) : Bool :=
  mws.any (fun w => isSubstr (lowerL w) (lowerL graf)) ||
    mwsCS.any (fun w => isSubstr w graf)

/-- The accumulation loop of `Article.check_for_matches`: matching
paragraphs are appended to `matching_grafs` in their original order. -/
def matchLoop (mws mwsCS : List (List Char)) :
    List (List Char) → List (List Char) → List (List Char)
  | acc, [] => acc
  | acc, g :: gs =>
    matchLoop mws mwsCS (if grafMatches mws mwsCS g then acc ++ [g] else acc) gs

/-- Embeds `Article.check_for_matches` after the fetch+extract step produced
`plaintext`: return immediately (no matches) when the user-agent marker is
present, when any block word is a case-insensitive substring of the full
plaintext, or when the optional external blocklist capability (modelled as
`blLoaded` and `blCheck`) blocks the article; otherwise split on newlines
and collect the matching paragraphs. -/
def check_for_matches (ua : List Char) (blockWords mws mwsCS : List (List Char))
    (blLoaded : Bool) (blCheck : List Char → Bool) (plaintext : List Char) :
    List (List Char) :=
  if isSubstr ua plaintext then []
  else if blockWords.any (fun w => isSubstr (lowerL w) (lowerL plaintext)) then []
  else
    let grafs := splitOnChar '\n' plaintext
    if blLoaded && blCheck plaintext then []
    else matchLoop mws mwsCS [] grafs

/-- A rendered paragraph image, recorded symbolically: which paragraph was
rendered and with which aspect flag (`render_img(graf, square=square)`). -/
structure RenderedImg where
  graf : List Char
  square : Bool
deriving DecidableEq

/-- Embeds the rendering policy of `Article.tweet`:
`square = False if len(self.matching_grafs) == 1 else True`, then render
`self.matching_grafs[:4]` in order. -/
def tweet_images (matchingGrafs : List (List Char)) : List RenderedImg :=
  let sq := if matchingGrafs.length = 1 then false else true
  (matchingGrafs.take 4).map (fun g => { graf := g, square := sq })

/-- One row of the `articles` table (the Dedup Record). `recordedAt` is an
abstract timestamp in days; `tweetId` is the nullable `tweet_id` column. -/
structure DBRecord where
  title : String
  outlet : String
  url : String
  tweeted : Bool
  recordedAt : Nat
  tweetId : Option Nat
deriving DecidableEq

/-- Embeds the dedup insert of `main` combined with the unique index
`idx_articles_url` from `setup_db`: inserting a row whose `url` is already
present raises `sqlite3.IntegrityError`, which `main` swallows, so the
insert is a no-op on the store. -/
def insertArticle (db : List DBRecord) (r : DBRecord) : List DBRecord :=
  if db.any (fun x => x.url == r.url) then db else db ++ [r]

/-- The threading decision of `main` for a matching article. -/
inductive ThreadDecision
  | standalone : ThreadDecision
  | replyTo : Nat → ThreadDecision
deriving DecidableEq

/-- Embeds the thread-parent lookup of `main`: select `tweet_id` from rows
with exactly the same title recorded within the last 2 days (rows in
insertion order), take the last row if any; the tweet id is then passed
through `int(tweet_id)`, so a NULL `tweet_id` raises an uncaught
`TypeError`, modelled as `.error`. -/
def threadDecision (db : List DBRecord) (now : Nat) (title : String) :
    Except String ThreadDecision :=
  let sameTitle :=
    (db.filter (fun r => r.title == title && now ≤ r.recordedAt + 2)).map
      (fun r => r.tweetId)
  match sameTitle.getLast? with
  | none => .ok .standalone
  | some none => .error "TypeError: int() argument cannot be NoneType"
  | some (some i) => .ok (.replyTo i)

/-- The transient article of a pipeline pass, already canonicalized. -/
structure Article where
  outlet : String
  title : String
  url : String
deriving DecidableEq

/-- Outcome of one iteration of the per-article loop of `main`: the store
afterwards, whether fetch+extraction was attempted, and whether a
notification was posted. -/
structure StepResult where
  db : List DBRecord
  fetched : Bool
  notified : Bool
deriving DecidableEq

/-- Embeds one iteration of the per-article loop of `main`: skip (continue)
when the url already has a row; otherwise run fetch+extract+match
(`article.check_for_matches()`), whose external outcome is `fetchOutcome` —
`.error ()` models a raised exception, caught and logged by `main`, leaving
`matching_grafs` empty; `.ok grafs` gives the matching paragraphs. If any
paragraph matched, consult the thread-parent lookup (whose `TypeError` on a
NULL parent id propagates uncaught) and tweet — `newId` is the id string the
transport returns. Finally insert the row, conflicts swallowed. -/
def processArticle (db : List DBRecord) (now : Nat) (a : Article)
    (fetchOutcome : Except Unit (List (List Char))) (newId : Nat) :
    Except String StepResult :=
  if db.any (fun r => r.url == a.url) then
    .ok { db := db, fetched := false, notified := false }
  else
    let grafs := match fetchOutcome with
      | .error _ => []
      | .ok gs => gs
    if grafs.isEmpty then
      .ok { db := insertArticle db
              { title := a.title, outlet := a.outlet, url := a.url,
                tweeted := false, recordedAt := now, tweetId := none },
            fetched := true, notified := false }
    else
      match threadDecision db now a.title with
      | .error e => .error e
      | .ok _ =>
        .ok { db := insertArticle db
                { title := a.title, outlet := a.outlet, url := a.url,
                  tweeted := true, recordedAt := now, tweetId := some newId },
              fetched := true, notified := true }

/-- The sequential per-article loop of `main` over one feed's deduplicated
article list, threading the store through `processArticle`; an uncaught
exception (`.error`) aborts the pass. -/
def runPass (db : List DBRecord) (now : Nat) :
    List (Article × Except Unit (List (List Char)) × Nat) →
      Except String (List DBRecord)
  | [] => .ok db
  | (a, fo, nid) :: rest =>
    match processArticle db now a fo nid with
    | .error e => .error e
    | .ok r => runPass r.db now rest
/-- The accumulation loop of `check_for_matches` collects exactly the
paragraphs passing the match test, appended after the accumulator in their
original order. -/
theorem matchLoop_eq_filter (mws mwsCS : List (List Char)) (gs acc : List (List Char)) :
    matchLoop mws mwsCS acc gs = acc ++ gs.filter (grafMatches mws mwsCS) := by
  induction gs generalizing acc with
  | nil => simp [matchLoop]
  | cons g gs ih =>
    cases h : grafMatches mws mwsCS g <;>
      simp [matchLoop, h, ih, List.filter_cons]

/-- The first segment of a single-character split is the longest
separator-free leading run of the input. -/
theorem headD_splitOnChar (sep : Char) (l : List Char) :
    (splitOnChar sep l).headD [] = l.takeWhile (fun c => !(c == sep)) := by
  induction l with
  | nil => simp [splitOnChar]
  | cons c cs ih =>
    by_cases h : c = sep
    · simp [splitOnChar, h, List.takeWhile_cons]
    · simp [splitOnChar, h, List.takeWhile_cons] at ih ⊢
      exact ih

/-- Composing two takeWhile passes is one takeWhile with the conjunction of
the predicates. -/
theorem takeWhile_takeWhileB (p q : Char → Bool) (l : List Char) :
    (l.takeWhile q).takeWhile p = l.takeWhile (fun c => q c && p c) := by
  induction l with
  | nil => rfl
  | cons c cs ih =>
    cases hq : q c <;> cases hp : p c <;>
      simp [List.takeWhile_cons, hq, hp, ih]

/-- `decruft_url` keeps exactly the characters before the first query or
fragment separator, whichever comes first. -/
theorem decruft_eq_takeWhile (u : List Char) :
    decruft_url u = u.takeWhile (fun c => !(c == '?') && !(c == '#')) := by
  unfold decruft_url
  rw [headD_splitOnChar, headD_splitOnChar, takeWhile_takeWhileB]

/-- Decrufting an already-decrufted URL changes nothing. -/
theorem decruft_url_idem (u : List Char) :
    decruft_url (decruft_url u) = decruft_url u := by
  simp only [decruft_eq_takeWhile, takeWhile_takeWhileB, Bool.and_self]

set_option maxRecDepth 40000 in
/-- C3 (amended): for every case-sensitive root word, the Matchword
Compiler deterministically produces exactly 275 surface forms: 5
morphological variants times the cartesian product of the 5-element fixed
prefix set and the 11-element fixed suffix set. -/
theorem generate_matchwords_length (word : List Char) :
    (generate_matchwords word).length = 275 := rfl

/-- C10: for every input string, `decruft_url` returns a prefix of the
input that contains neither the query separator nor the fragment
separator; it equals everything before the first occurrence of either
character (whichever comes first), and an input containing neither
character is returned unchanged. -/
theorem decruft_url_spec (u : List Char) :
    decruft_url u <+: u ∧
    ('?' ∉ decruft_url u ∧ '#' ∉ decruft_url u) ∧
    decruft_url u = u.takeWhile (fun c => !(c == '?') && !(c == '#')) ∧
    (('?' ∉ u ∧ '#' ∉ u) → decruft_url u = u) := by
  have hchar := decruft_eq_takeWhile u
  refine ⟨?_, ⟨?_, ?_⟩, hchar, ?_⟩
  · rw [hchar]; exact List.takeWhile_prefix _
  · rw [hchar]; intro hmem
    have h2 := List.mem_takeWhile_imp hmem
    simp at h2
  · rw [hchar]; intro hmem
    have h2 := List.mem_takeWhile_imp hmem
    simp at h2
  · rintro ⟨h1, h2⟩
    rw [hchar]
    apply List.takeWhile_eq_self_iff.mpr
    intro x hx
    have hx1 : x ≠ '?' := fun e => h1 (e ▸ hx)
    have hx2 : x ≠ '#' := fun e => h2 (e ▸ hx)
    simp [hx1, hx2]

/-- C10 witness: a concrete URL without query or fragment separators is
returned unchanged by `decruft_url`. -/
theorem decruft_url_spec_witness :
    ('?' ∉ ("http://ex.com/a".data : List Char) ∧ '#' ∉ ("http://ex.com/a".data : List Char)) ∧
      decruft_url "http://ex.com/a".data = "http://ex.com/a".data :=
  ⟨by decide, (decruft_url_spec "http://ex.com/a".data).2.2.2 (by decide)⟩

/-- C9 (amended): URL canonicalization is idempotent whenever the feed is
not flagged as using redirect links: for every redirect resolver, every
value of the delicate flag and every URL,
`canonicalize(canonicalize(u)) = canonicalize(u)`. (With the redirect flag
set, canonicalization re-invokes the external resolver, and idempotence
depends on that capability rather than on this code.) -/
theorem canonicalize_url_idem (resolve : List Char → List Char) (delicate : Bool)
    (u : List Char) :
    canonicalize_url resolve false delicate (canonicalize_url resolve false delicate u) =
      canonicalize_url resolve false delicate u := by
  cases delicate <;> simp [canonicalize_url, decruft_url_idem]

/-- C9 counterexample: with the redirect flag set, canonicalization
re-runs the external resolver, so for a resolver that appends a character
the composite is not idempotent even with fixed flags. -/
theorem canonicalize_url_not_idem :
    canonicalize_url (fun l => l ++ ['x']) true true
        (canonicalize_url (fun l => l ++ ['x']) true true ['a']) ≠
      canonicalize_url (fun l => l ++ ['x']) true true ['a'] := by decide

set_option maxRecDepth 40000 in
/-- C3 counterexample: `generate_matchwords` applied to the root word FBI
yields 275 surface forms, not the 250 the claim states (the suffix set has
11 entries, not 10). -/
theorem generate_matchwords_FBI_count :
    (generate_matchwords "FBI".data).length = 275 ∧
      (generate_matchwords "FBI".data).length ≠ 250 :=
  ⟨rfl, by decide⟩

/-- C7: whenever some configured block word occurs as a case-insensitive
substring anywhere in the full plaintext, `check_for_matches` returns the
empty list of matching paragraphs, for every matchword configuration. -/
theorem check_for_matches_blockword (ua : List Char)
    (blockWords mws mwsCS : List (List Char)) (blLoaded : Bool)
    (blCheck : List Char → Bool) (plaintext : List Char)
    (h : ∃ w ∈ blockWords, isSubstr (lowerL w) (lowerL plaintext) = true) :
    check_for_matches ua blockWords mws mwsCS blLoaded blCheck plaintext = [] := by
  have hany : blockWords.any (fun w => isSubstr (lowerL w) (lowerL plaintext)) = true :=
    List.any_eq_true.mpr h
  cases hua : isSubstr ua plaintext <;>
    simp [check_for_matches, hua, hany]

/-- C7 witness: a plaintext containing both a block word (with different
case) and a case-insensitive matchword produces no matches. -/
theorem check_for_matches_blockword_witness :
    (∃ w ∈ ([ "bAd".data ] : List (List Char)),
        isSubstr (lowerL w) (lowerL "the FBI did a Bad thing".data) = true) ∧
      check_for_matches "UA".data ["bAd".data] ["fbi".data] []
        false (fun _ => false) "the FBI did a Bad thing".data = [] :=
  ⟨by decide,
    check_for_matches_blockword "UA".data ["bAd".data] ["fbi".data] []
      false (fun _ => false) "the FBI did a Bad thing".data (by decide)⟩

/-- C8: for every plaintext not suppressed by the user-agent marker, the
block words, or the external blocklist capability, `check_for_matches`
splits the plaintext at newlines and returns exactly the paragraphs for
which some case-insensitive word is a case-folded substring or some
case-sensitive surface form is an exact substring, in their original
order, dropping every paragraph that fails both tests. -/
theorem check_for_matches_filter (ua : List Char)
    (blockWords mws mwsCS : List (List Char)) (blLoaded : Bool)
    (blCheck : List Char → Bool) (plaintext : List Char)
    (hua : isSubstr ua plaintext = false)
    (hblock : blockWords.any (fun w => isSubstr (lowerL w) (lowerL plaintext)) = false)
    (hcap : (blLoaded && blCheck plaintext) = false) :
    check_for_matches ua blockWords mws mwsCS blLoaded blCheck plaintext =
      (splitOnChar '\n' plaintext).filter (grafMatches mws mwsCS) := by
  simp [check_for_matches, hua, hblock, hcap, matchLoop_eq_filter]

/-- C8 witness: on the plaintext with paragraphs `Alpha unrelated.` and
`The FBI said so.` and one case-sensitive surface form, the evaluator
returns the newline-split paragraphs filtered by the paragraph test. -/
theorem check_for_matches_filter_witness :
    (isSubstr "UA".data "Alpha unrelated.\nThe FBI said so.".data = false ∧
      List.any [] (fun w => isSubstr (lowerL w) (lowerL "Alpha unrelated.\nThe FBI said so.".data)) = false ∧
      (false && (fun _ => false) "Alpha unrelated.\nThe FBI said so.".data) = false) ∧
    check_for_matches "UA".data [] [] [" FBI ".data] false (fun _ => false)
        "Alpha unrelated.\nThe FBI said so.".data =
      (splitOnChar '\n' "Alpha unrelated.\nThe FBI said so.".data).filter
        (grafMatches [] [" FBI ".data]) :=
  ⟨⟨by decide, by decide, by decide⟩,
    check_for_matches_filter "UA".data [] [] [" FBI ".data] false (fun _ => false)
      "Alpha unrelated.\nThe FBI said so.".data (by decide) (by decide) (by decide)⟩

/-- C4 (amended): for every matching article that is notified, at most 4
images are rendered, taken from the first 4 matching paragraphs in order;
the rendering aspect flag is the landscape one (`square = false`) when the
article has exactly one matching paragraph and the square one
(`square = true`) when it has more than one — the reverse of the claimed
assignment. -/
theorem tweet_images_spec (grafs : List (List Char)) :
    (tweet_images grafs).length ≤ 4 ∧
    (tweet_images grafs).map (fun i => i.graf) = grafs.take 4 ∧
    (grafs.length = 1 → (tweet_images grafs).map (fun i => i.square) = [false]) ∧
    (1 < grafs.length → ∀ i ∈ tweet_images grafs, i.square = true) := by
  refine ⟨?_, ?_, ?_, ?_⟩
  · simp [tweet_images]
  · show ((grafs.take 4).map _).map _ = grafs.take 4
    rw [List.map_map]
    exact List.map_id'' (fun g => rfl) _
  · intro h
    obtain ⟨g, rfl⟩ := List.length_eq_one.mp h
    simp [tweet_images]
  · intro h i hi
    have hne : grafs.length ≠ 1 := by omega
    simp only [tweet_images, hne, if_false, ite_false, List.mem_map] at hi
    obtain ⟨g, hg, rfl⟩ := hi
    rfl

/-- C4 witness: with two matching paragraphs every rendered image carries
the square flag, and with exactly one matching paragraph the single
rendered image carries the landscape flag. -/
theorem tweet_images_spec_witness :
    (1 < ([ "a".data, "b".data ] : List (List Char)).length ∧
      ∀ i ∈ tweet_images ["a".data, "b".data], i.square = true) ∧
    (([ "c".data ] : List (List Char)).length = 1 ∧
      (tweet_images ["c".data]).map (fun i => i.square) = [false]) :=
  ⟨⟨by decide, (tweet_images_spec ["a".data, "b".data]).2.2.2 (by decide)⟩,
    ⟨by decide, (tweet_images_spec ["c".data]).2.2.1 (by decide)⟩⟩

/-- C4 counterexample: an article with exactly one matching paragraph has
its image rendered with `square = false` (landscape), contradicting the
claim that single-paragraph notifications render square. -/
theorem tweet_images_single_not_square :
    (tweet_images ["a".data]).map (fun i => i.square) = [false] ∧
      (tweet_images ["a".data]).map (fun i => i.square) ≠ [true] := by decide

/-- C5: recording an article outcome whose canonical URL is already
present in the store (unique `url` index plus the swallowed
`IntegrityError`) is a no-op: the store is unchanged and still contains
exactly one row for that URL. Because `insertArticle` is total, the pass
continues normally. -/
theorem insertArticle_conflict (db : List DBRecord) (r : DBRecord)
    (h : List.countP (fun x => x.url == r.url) db = 1) :
    insertArticle db r = db ∧
      List.countP (fun x => x.url == r.url) (insertArticle db r) = 1 := by
  have hpos : 0 < List.countP (fun x => x.url == r.url) db := by omega
  have hex := List.countP_pos_iff.mp hpos
  have hany : db.any (fun x => x.url == r.url) = true := List.any_eq_true.mpr hex
  have heq : insertArticle db r = db := by
    simp [insertArticle, hany]
  refine ⟨heq, ?_⟩
  rw [heq]
  exact h

/-- C5 witness: inserting a second record with the duplicate url `u`
leaves the one-row store unchanged, with exactly one row for `u`. -/
theorem insertArticle_conflict_witness :
    List.countP (fun x => x.url == (⟨"T2", "O2", "u", true, 1, some 7⟩ : DBRecord).url)
        [(⟨"T", "O", "u", false, 0, none⟩ : DBRecord)] = 1 ∧
      (insertArticle [(⟨"T", "O", "u", false, 0, none⟩ : DBRecord)]
          ⟨"T2", "O2", "u", true, 1, some 7⟩ =
        [(⟨"T", "O", "u", false, 0, none⟩ : DBRecord)] ∧
      List.countP (fun x => x.url == (⟨"T2", "O2", "u", true, 1, some 7⟩ : DBRecord).url)
        (insertArticle [(⟨"T", "O", "u", false, 0, none⟩ : DBRecord)]
          ⟨"T2", "O2", "u", true, 1, some 7⟩) = 1) :=
  ⟨by decide,
    insertArticle_conflict [(⟨"T", "O", "u", false, 0, none⟩ : DBRecord)]
      ⟨"T2", "O2", "u", true, 1, some 7⟩ (by decide)⟩

/-- C6: an article whose canonical URL already has a Dedup Record is
skipped by the per-article loop before any fetch or match evaluation: the
step attempts no fetch/extraction, posts no notification, and leaves the
store unchanged, whatever the fetch outcome would have been. -/
theorem processArticle_skip_seen (db : List DBRecord) (now : Nat) (a : Article)
    (fo : Except Unit (List (List Char))) (nid : Nat)
    (h : db.any (fun r => r.url == a.url) = true) :
    processArticle db now a fo nid =
      .ok ⟨db, false, false⟩ := by
  simp [processArticle, h]

/-- C6 witness: with the url `u` already recorded, the step for a new
article with the same url does nothing, even though its fetch outcome
would have produced a matching paragraph. -/
theorem processArticle_skip_seen_witness :
    List.any [(⟨"T", "O", "u", false, 0, none⟩ : DBRecord)]
        (fun r => r.url == (⟨"O", "T2", "u"⟩ : Article).url) = true ∧
      processArticle [(⟨"T", "O", "u", false, 0, none⟩ : DBRecord)]
          3 ⟨"O", "T2", "u"⟩ (.ok ["x".data]) 9 =
        .ok ⟨[(⟨"T", "O", "u", false, 0, none⟩ : DBRecord)], false, false⟩ :=
  ⟨by decide,
    processArticle_skip_seen [(⟨"T", "O", "u", false, 0, none⟩ : DBRecord)]
      3 ⟨"O", "T2", "u"⟩ (.ok ["x".data]) 9 (by decide)⟩

/-- C1 (amended): when fetch or extraction raises during a pipeline pass,
the orchestrator catches the error, skips that article's match evaluation
and notification, and continues the pass with the next article — but it
still writes a Dedup Record for the article's canonical URL (tweeted
false, null notification id), so the URL is not retried on the next
pass. -/
theorem processArticle_error_records (db : List DBRecord) (now : Nat) (a : Article)
    (nid : Nat) (rest : List (Article × Except Unit (List (List Char)) × Nat))
    (h : db.any (fun r => r.url == a.url) = false) :
    processArticle db now a (.error ()) nid =
      .ok ⟨db ++ [(⟨a.title, a.outlet, a.url, false, now, none⟩ : DBRecord)], true, false⟩ ∧
    runPass db now ((a, .error (), nid) :: rest) =
      runPass (db ++ [(⟨a.title, a.outlet, a.url, false, now, none⟩ : DBRecord)]) now rest := by
  have hins : insertArticle db (⟨a.title, a.outlet, a.url, false, now, none⟩ : DBRecord) =
      db ++ [(⟨a.title, a.outlet, a.url, false, now, none⟩ : DBRecord)] := by
    simp [insertArticle, h]
  have hstep : processArticle db now a (.error ()) nid =
      .ok ⟨db ++ [(⟨a.title, a.outlet, a.url, false, now, none⟩ : DBRecord)], true, false⟩ := by
    simp [processArticle, h, hins]
  refine ⟨hstep, ?_⟩
  simp [runPass, hstep]

/-- C1 witness: a fetch error on a fresh url records the article as
unnotified and the pass goes on from the extended store. -/
theorem processArticle_error_records_witness :
    List.any ([] : List DBRecord)
        (fun r => r.url == (⟨"O", "T", "u"⟩ : Article).url) = false ∧
      (processArticle [] 4 ⟨"O", "T", "u"⟩ (.error ()) 9 =
        .ok ⟨[(⟨"T", "O", "u", false, 4, none⟩ : DBRecord)], true, false⟩ ∧
      runPass [] 4 [(⟨"O", "T", "u"⟩, .error (), 9)] =
        runPass [(⟨"T", "O", "u", false, 4, none⟩ : DBRecord)] 4 []) :=
  ⟨by decide,
    processArticle_error_records [] 4 ⟨"O", "T", "u"⟩ 9 [] (by decide)⟩

/-- C1 counterexample: after a fetch/extraction error on an unseen url
the step still writes a Dedup Record for that url, refuting the claim
that no record is written (and hence that the URL is retried on the next
pass). -/
theorem processArticle_error_writes_record :
    processArticle [] 0 ⟨"O", "T", "u"⟩ (.error ()) 0 =
      .ok ⟨[(⟨"T", "O", "u", false, 0, none⟩ : DBRecord)], true, false⟩ ∧
    ¬ (match processArticle [] 0 (⟨"O", "T", "u"⟩ : Article) (.error ()) 0 with
       | .ok r => r.db.any (fun x => x.url == "u")
       | .error _ => false) = false := ⟨rfl, by decide⟩

/-- C2: the code-level thread-parent lookup does return the most recently
recorded notification id among same-titled records inside the 2-day
window (second conjunct) and a standalone decision when every such record
is outside the window (third conjunct), but when the most recent
same-titled record's notification id is NULL it raises an uncaught
`TypeError` from `int(None)` instead of returning none / issuing a
standalone notification (first conjunct), contradicting the claim and the
error-handling design. -/
theorem threadDecision_null_parent_raises :
    threadDecision [(⟨"T", "O", "u", false, 5, none⟩ : DBRecord)] 5 "T" =
      .error "TypeError: int() argument cannot be NoneType" ∧
    threadDecision [(⟨"T", "O", "u", true, 5, some 42⟩ : DBRecord)] 5 "T" =
      .ok (.replyTo 42) ∧
    threadDecision [(⟨"T", "O", "u", true, 1, some 42⟩ : DBRecord)] 5 "T" =
      .ok .standalone := ⟨rfl, rfl, rfl⟩
